import Mathlib

/-!
Shallow embedding of the mtatft-data-collector crawl-and-enrich pipeline
(TypeScript) and proofs of its specified properties.

Conventions of the embedding:
* External I/O (HTTP calls, the database client) is modelled by explicit
  outcome functions passed as parameters: a fetch is a function from the
  request key to an outcome value, a persistence callback is a function
  returning `true` on success and `false` when the write throws.
* JavaScript `Set<string>` is modelled as an insertion-ordered duplicate-free
  `List String`; `Set.add` appends only when the element is absent.
* JSON numeric fields (zod `z.number()`) are modelled as `Int`; the code
  under verification never computes with them.
* zod validation is modelled by the typed record itself: a payload that
  parses is a value of the corresponding structure, a payload that does not
  parse is a distinguished failure outcome.
-/

namespace Riot

/-- `CompanionSchema` of `src/models/riot/RiotMatchModels.ts`. -/
structure Companion where
  content_ID : String
  item_ID : Int
  skin_ID : Int
  species : String
deriving DecidableEq

/-- `TraitSchema` of `src/models/riot/RiotMatchModels.ts`. -/
structure Trait where
  name : String
  num_units : Int
  style : Int
  tier_current : Int
  tier_total : Int
deriving DecidableEq

/-- `UnitSchema` of `src/models/riot/RiotMatchModels.ts`. -/
structure Unit where
  character_id : String
  itemNames : List String
  name : String
  rarity : Int
  tier : Int
deriving DecidableEq

/-- `ParticipantSchema` of `src/models/riot/RiotMatchModels.ts`.
`missions` is a dynamic record with unknown values; it is modelled by its
key list, since no code reads the values. -/
structure Participant where
  companion : Companion
  gold_left : Int
  last_round : Int
  level : Int
  placement : Int
  players_eliminated : Int
  puuid : String
  time_eliminated : Int
  total_damage_to_players : Int
  riotIdGameName : Option String
  riotIdTagline : Option String
  missions : Option (List String)
  traits : List Trait
  units : List Unit
  win : Option Bool
deriving DecidableEq

/-- `MetadataSchema` of `src/models/riot/RiotMatchModels.ts`. -/
structure Metadata where
  data_version : String
  match_id : String
  participants : List String
deriving DecidableEq

/-- `InfoSchema` of `src/models/riot/RiotMatchModels.ts`. -/
structure Info where
  endOfGameResult : String
  gameCreation : Int
  gameId : Int
  game_datetime : Int
  game_length : Int
  game_version : String
  mapId : Int
  queueId : Int
  queue_id : Int
  tft_game_type : String
  tft_set_core_name : String
  tft_set_number : Int
  participants : List Participant
deriving DecidableEq

/-- `RiotMatchSchema` of `src/models/riot/RiotMatchModels.ts`. -/
structure RiotMatch where
  metadata : Metadata
  info : Info
deriving DecidableEq

/-- `MatchSummarySchema` of `src/models/riot/RiotMatchModels.ts`. -/
structure MatchSummary where
  match_id : String
  game_datetime : Int
  game_length : Int
  queue_id : Int
  tft_set_number : Int
  tft_game_type : String
  participants_count : Int
deriving DecidableEq

/-- `RiotLeagueEntrySchema` of `src/models/riot/RiotLeagueModels.ts`. -/
structure RiotLeagueEntry where
  puuid : String
  leagueId : String
  queueType : String
  tier : String
  rank : String
  leaguePoints : Int
  wins : Int
  losses : Int
  veteran : Bool
  inactive : Bool
  freshBlood : Bool
  hotStreak : Bool
deriving DecidableEq

end Riot

/-- `MATCHES_PER_PLAYER` of `src/utils/constant.ts`. -/
def MATCHES_PER_PLAYER : Nat := 20

/-- `MatchDetailResult` of `src/services/matchCollectorService.ts`.
`fullMatchData` is the raw JSON payload; since the payload was just
validated by `RiotMatchSchema.parse`, it is modelled by its validated
shape. -/
structure MatchDetailResult where
  matchId : String
  fullMatchData : Riot.RiotMatch
  matchSummary : Riot.MatchSummary
  playerPuuids : List String
deriving DecidableEq

/-- The match-summary object built inside `fetchAndSaveMatchDetails`
(`src/services/matchCollectorService.ts`); `MatchSummarySchema.parse` on an
already well-typed summary is the identity. -/
def mkMatchSummary (m : Riot.RiotMatch) : Riot.MatchSummary :=
  { match_id := m.metadata.match_id
    game_datetime := m.info.game_datetime
    game_length := m.info.game_length
    queue_id := m.info.queue_id
    tft_set_number := m.info.tft_set_number
    tft_game_type := m.info.tft_game_type
    participants_count := m.info.participants.length }

/-- The `MatchDetailResult` value built inside `fetchAndSaveMatchDetails`
for one fetched and validated match. -/
def mkMatchDetailResult (matchId : String) (m : Riot.RiotMatch) : MatchDetailResult :=
  { matchId := matchId
    fullMatchData := m
    matchSummary := mkMatchSummary m
    playerPuuids := m.info.participants.map (fun p => p.puuid) }

/-- Outcome of one match-detail fetch in `fetchAndSaveMatchDetails`:
the HTTP call together with `RiotMatchSchema.parse` either yields a
validated match, or throws an API error (axios failure / rate-limit
retries exhausted), or throws a zod validation error. -/
inductive MatchFetch where
  | ok (m : Riot.RiotMatch)
  | apiError
  | invalidPayload
deriving DecidableEq

/-- Observable per-id outcome of one loop iteration of
`fetchAndSaveMatchDetails`: the fetch failed, the payload failed
validation, or the `onMatchFetched` callback was invoked (and succeeded or
threw). -/
inductive MatchEvent where
  | fetchFailed (matchId : String)
  | invalid (matchId : String)
  | saved (r : MatchDetailResult)
  | saveFailed (r : MatchDetailResult)
deriving DecidableEq

/-- The match id an event belongs to. -/
def MatchEvent.matchId : MatchEvent → String
  | .fetchFailed id => id
  | .invalid id => id
  | .saved r => r.matchId
  | .saveFailed r => r.matchId

/-- `fetchAndSaveMatchDetails` of `src/services/matchCollectorService.ts`
(lines 112-178).  `fetch` models the rate-limited detail call followed by
`RiotMatchSchema.parse`; `onMatchFetched` models the persistence callback
(`true` = resolved, `false` = threw, caught by the inner `try`).  Returns
the success count together with the ordered log of per-id outcomes.
`region` is a parameter of the source function and is unused there. -/
def fetchAndSaveMatchDetails (match_id_list : List String) (region : String)
    (fetch : String → MatchFetch) (onMatchFetched : MatchDetailResult → Bool) :
    Nat × List MatchEvent :=
  match match_id_list with
  | [] => (0, [])
  | matchId :: rest =>
    let step : Nat × List MatchEvent :=
      match fetch matchId with
      | .ok m =>
        let r := mkMatchDetailResult matchId m
        if onMatchFetched r then (1, [.saved r]) else (0, [.saveFailed r])
      | .apiError => (0, [.fetchFailed matchId])
      | .invalidPayload => (0, [.invalid matchId])
    let restRun := fetchAndSaveMatchDetails rest region fetch onMatchFetched
    (step.1 + restRun.1, step.2 ++ restRun.2)

/-- One match id succeeds when its fetch-and-validate step yields a match
and the persistence callback resolves. -/
def matchSucceeds (fetch : String → MatchFetch) (onMatchFetched : MatchDetailResult → Bool)
    (matchId : String) : Bool :=
  match fetch matchId with
  | .ok m => onMatchFetched (mkMatchDetailResult matchId m)
  | _ => false

/-- The event one loop iteration of `fetchAndSaveMatchDetails` produces for
a given match id; it depends only on that id's own fetch and save
outcomes. -/
def itemEvent (fetch : String → MatchFetch) (onMatchFetched : MatchDetailResult → Bool)
    (matchId : String) : MatchEvent :=
  match fetch matchId with
  | .ok m =>
    let r := mkMatchDetailResult matchId m
    if onMatchFetched r then .saved r else .saveFailed r
  | .apiError => .fetchFailed matchId
  | .invalidPayload => .invalid matchId

@[simp] lemma mkMatchDetailResult_matchId (id : String) (m : Riot.RiotMatch) :
    (mkMatchDetailResult id m).matchId = id := rfl

@[simp] lemma mkMatchDetailResult_fullMatchData (id : String) (m : Riot.RiotMatch) :
    (mkMatchDetailResult id m).fullMatchData = m := rfl

@[simp] lemma mkMatchDetailResult_playerPuuids (id : String) (m : Riot.RiotMatch) :
    (mkMatchDetailResult id m).playerPuuids = m.info.participants.map (fun p => p.puuid) := rfl

lemma itemEvent_matchId (fetch : String → MatchFetch) (save : MatchDetailResult → Bool)
    (id : String) : (itemEvent fetch save id).matchId = id := by
  unfold itemEvent
  cases h : fetch id with
  | ok m =>
    cases hs : save (mkMatchDetailResult id m) with
    | true => simp [hs, MatchEvent.matchId]
    | false => simp [hs, MatchEvent.matchId]
  | apiError => simp [MatchEvent.matchId]
  | invalidPayload => simp [MatchEvent.matchId]

lemma run_cons (id : String) (rest : List String) (region : String)
    (fetch : String → MatchFetch) (save : MatchDetailResult → Bool) :
    fetchAndSaveMatchDetails (id :: rest) region fetch save =
      ((if matchSucceeds fetch save id then 1 else 0) +
         (fetchAndSaveMatchDetails rest region fetch save).1,
       itemEvent fetch save id :: (fetchAndSaveMatchDetails rest region fetch save).2) := by
  conv_lhs => rw [fetchAndSaveMatchDetails]
  unfold itemEvent matchSucceeds
  cases h : fetch id with
  | ok m =>
    cases hs : save (mkMatchDetailResult id m) with
    | true => simp [hs]
    | false => simp [hs]
  | apiError => simp
  | invalidPayload => simp

lemma run_events_eq_map (ids : List String) (region : String)
    (fetch : String → MatchFetch) (save : MatchDetailResult → Bool) :
    (fetchAndSaveMatchDetails ids region fetch save).2 = ids.map (itemEvent fetch save) := by
  induction ids with
  | nil => rfl
  | cons id rest ih => rw [run_cons]; simp [ih]

lemma run_count_eq_filter (ids : List String) (region : String)
    (fetch : String → MatchFetch) (save : MatchDetailResult → Bool) :
    (fetchAndSaveMatchDetails ids region fetch save).1 =
      (ids.filter (matchSucceeds fetch save)).length := by
  induction ids with
  | nil => rfl
  | cons id rest ih =>
    rw [run_cons]
    cases hs : matchSucceeds fetch save id <;>
      simp [List.filter_cons, hs, ih, Nat.add_comm]

/-- C1: `fetchAndSaveMatchDetails` returns exactly the number of match ids
for which both the fetch-and-validate step and the persistence callback
succeeded; a match whose callback fails is not counted (its iteration logs
a `saveFailed` event and contributes nothing to the count). -/
theorem C1_streamer_success_count (ids : List String) (region : String)
    (fetch : String → MatchFetch) (save : MatchDetailResult → Bool) :
    (fetchAndSaveMatchDetails ids region fetch save).1 =
      (ids.filter (matchSucceeds fetch save)).length :=
  run_count_eq_filter ids region fetch save

/-- C2: a failure on one id of `fetchAndSaveMatchDetails` — fetch error,
validation error, or persistence-callback error — skips only that id: the
run produces exactly one event per input id, in input order, and each id's
event is determined by that id's own outcomes alone, so the loop never
aborts and every other id is still processed. -/
theorem C2_streamer_isolates_failures (ids : List String) (region : String)
    (fetch : String → MatchFetch) (save : MatchDetailResult → Bool) :
    (fetchAndSaveMatchDetails ids region fetch save).2 = ids.map (itemEvent fetch save) ∧
    (fetchAndSaveMatchDetails ids region fetch save).2.map MatchEvent.matchId = ids := by
  refine ⟨run_events_eq_map ids region fetch save, ?_⟩
  rw [run_events_eq_map ids region fetch save, List.map_map]
  have : (MatchEvent.matchId ∘ itemEvent fetch save) = id := by
    funext x
    exact itemEvent_matchId fetch save x
  rw [this, List.map_id]

/-- A participant record with every payload field defaulted except the
puuid, used to build concrete match payloads in counterexamples. -/
def exampleParticipant (puuid : String) : Riot.Participant :=
  { companion := { content_ID := "", item_ID := 0, skin_ID := 0, species := "" }
    gold_left := 0
    last_round := 0
    level := 0
    placement := 1
    players_eliminated := 0
    puuid := puuid
    time_eliminated := 0
    total_damage_to_players := 0
    riotIdGameName := none
    riotIdTagline := none
    missions := none
    traits := []
    units := []
    win := none }

/-- A structurally valid match payload (it satisfies `RiotMatchSchema`: the
schema puts no length constraint on `info.participants`) that lists a
single participant. -/
def exampleMatchOneParticipant : Riot.RiotMatch :=
  { metadata := { data_version := "5", match_id := "M1", participants := ["P1"] }
    info :=
      { endOfGameResult := "GameComplete"
        gameCreation := 0
        gameId := 0
        game_datetime := 0
        game_length := 0
        game_version := "v"
        mapId := 0
        queueId := 1100
        queue_id := 1100
        tft_game_type := "standard"
        tft_set_core_name := "s"
        tft_set_number := 13
        participants := [exampleParticipant "P1"] } }

/-- C5 counterexample: a payload with one participant passes validation,
is handed to the callback with a participant id list of length 1 — not
8 — and is still counted as a success.  The validation layer enforces no
per-match player cap. -/
theorem C5_counterexample :
    (fetchAndSaveMatchDetails ["M1"] "sea" (fun _ => .ok exampleMatchOneParticipant)
        (fun _ => true)).2 =
      [MatchEvent.saved (mkMatchDetailResult "M1" exampleMatchOneParticipant)] ∧
    (mkMatchDetailResult "M1" exampleMatchOneParticipant).playerPuuids.length = 1 ∧
    ¬ (mkMatchDetailResult "M1" exampleMatchOneParticipant).playerPuuids.length = 8 ∧
    (fetchAndSaveMatchDetails ["M1"] "sea" (fun _ => .ok exampleMatchOneParticipant)
        (fun _ => true)).1 = 1 := by
  refine ⟨rfl, rfl, ?_, rfl⟩
  decide

/-- C5 amended: for every match payload that passes validation in
`fetchAndSaveMatchDetails`, the participant identifier list handed to the
`onMatchFetched` callback has exactly one element per participant of the
payload (its length equals the payload's `info.participants` length); the
game's 8-player cap is not enforced by validation, so the list has 8
elements exactly when the payload lists 8 participants. -/
theorem C5_amended_participant_ids_per_participant (ids : List String) (region : String)
    (fetch : String → MatchFetch) (save : MatchDetailResult → Bool)
    (r : MatchDetailResult)
    (h : MatchEvent.saved r ∈ (fetchAndSaveMatchDetails ids region fetch save).2 ∨
         MatchEvent.saveFailed r ∈ (fetchAndSaveMatchDetails ids region fetch save).2) :
    r.playerPuuids.length = r.fullMatchData.info.participants.length := by
  rw [run_events_eq_map ids region fetch save] at h
  have hr : ∃ id m, r = mkMatchDetailResult id m := by
    rcases h with h | h
    · rcases List.mem_map.mp h with ⟨id, _, hev⟩
      unfold itemEvent at hev
      cases hfi : fetch id with
      | ok m =>
        rw [hfi] at hev
        by_cases hs : save (mkMatchDetailResult id m) = true
        · simp only [hs, if_true] at hev
          injection hev with h2
          exact ⟨id, m, h2.symm⟩
        · simp only [hs, if_false] at hev
          simp at hev
      | apiError => rw [hfi] at hev; simp at hev
      | invalidPayload => rw [hfi] at hev; simp at hev
    · rcases List.mem_map.mp h with ⟨id, _, hev⟩
      unfold itemEvent at hev
      cases hfi : fetch id with
      | ok m =>
        rw [hfi] at hev
        by_cases hs : save (mkMatchDetailResult id m) = true
        · simp only [hs, if_true] at hev
          simp at hev
        · simp only [hs, if_false] at hev
          injection hev with h2
          exact ⟨id, m, h2.symm⟩
      | apiError => rw [hfi] at hev; simp at hev
      | invalidPayload => rw [hfi] at hev; simp at hev
  rcases hr with ⟨id, m, hrm⟩
  subst hrm
  simp [mkMatchDetailResult]

/-- Witness for `C5_amended_participant_ids_per_participant` at the
concrete one-participant run. -/
theorem C5_amended_witness :
    (mkMatchDetailResult "M1" exampleMatchOneParticipant).playerPuuids.length =
      (mkMatchDetailResult "M1" exampleMatchOneParticipant).fullMatchData.info.participants.length :=
  C5_amended_participant_ids_per_participant ["M1"] "sea"
    (fun _ => .ok exampleMatchOneParticipant) (fun _ => true)
    (mkMatchDetailResult "M1" exampleMatchOneParticipant)
    (Or.inl (by decide))

/-- JavaScript `Set.add`: append the element only when it is not already a
member (string equality, insertion order preserved). -/
def setAdd (s : List String) (x : String) : List String :=
  if x ∈ s then s else s ++ [x]

/-- `collectMatchIdsFromPlayers` of `src/services/matchCollectorService.ts`
(named `collectMatchIDBaseOnPlayerPUUIDs` in one revision, lines 7-32).
`fetchIds` models the rate-limited recent-match-ids call followed by
`MatchIdListSchema.parse` for one player: `some ids` when it resolves,
`none` when anything throws (an axios error or a zod error, both caught,
logged and skipped).  An empty seed set throws. -/
def collectMatchIdsFromPlayers (puuid_seed_list : List String)
    (fetchIds : String → Option (List String)) : Except String (List String) :=
  if puuid_seed_list.length ≤ 0 then
    .error "The size of puuid seed list is invalid to find match"
  else
    .ok (puuid_seed_list.foldl (fun acc puuid =>
      match fetchIds puuid with
      | some ids => ids.foldl setAdd acc
      | none => acc) [])

lemma mem_setAdd (s : List String) (x y : String) :
    y ∈ setAdd s x ↔ y ∈ s ∨ y = x := by
  unfold setAdd
  by_cases h : x ∈ s
  · simp only [if_pos h]
    constructor
    · exact Or.inl
    · rintro (hy | rfl)
      · exact hy
      · exact h
  · simp [if_neg h]

lemma nodup_setAdd (s : List String) (x : String) (hs : s.Nodup) :
    (setAdd s x).Nodup := by
  unfold setAdd
  by_cases h : x ∈ s
  · simpa [if_pos h]
  · simp only [if_neg h]
    simpa [List.nodup_append] using ⟨hs, fun hx => h hx⟩

lemma mem_foldl_setAdd (ids : List String) (acc : List String) (y : String) :
    y ∈ ids.foldl setAdd acc ↔ y ∈ acc ∨ y ∈ ids := by
  induction ids generalizing acc with
  | nil => simp
  | cons i rest ih =>
    rw [List.foldl_cons, ih, mem_setAdd]
    constructor
    · rintro ((hy | rfl) | hy)
      · exact Or.inl hy
      · simp
      · exact Or.inr (List.mem_cons_of_mem _ hy)
    · rintro (hy | hy)
      · exact Or.inl (Or.inl hy)
      · rcases List.mem_cons.mp hy with rfl | hy
        · exact Or.inl (Or.inr rfl)
        · exact Or.inr hy

lemma nodup_foldl_setAdd (ids : List String) (acc : List String) (hacc : acc.Nodup) :
    (ids.foldl setAdd acc).Nodup := by
  induction ids generalizing acc with
  | nil => simpa
  | cons i rest ih => exact ih _ (nodup_setAdd _ _ hacc)

lemma collect_fold_mem (puuids : List String) (fetchIds : String → Option (List String))
    (acc : List String) (y : String) :
    (y ∈ puuids.foldl (fun acc puuid =>
        match fetchIds puuid with
        | some ids => ids.foldl setAdd acc
        | none => acc) acc) ↔
      y ∈ acc ∨ ∃ p ∈ puuids, ∃ l, fetchIds p = some l ∧ y ∈ l := by
  induction puuids generalizing acc with
  | nil => simp
  | cons p rest ih =>
    rw [List.foldl_cons]
    cases hp : fetchIds p with
    | some ids =>
      rw [ih, mem_foldl_setAdd]
      constructor
      · rintro ((hy | hy) | ⟨q, hq, l, hl, hyl⟩)
        · exact Or.inl hy
        · exact Or.inr ⟨p, List.mem_cons_self p rest, ids, hp, hy⟩
        · exact Or.inr ⟨q, List.mem_cons_of_mem _ hq, l, hl, hyl⟩
      · rintro (hy | ⟨q, hq, l, hl, hyl⟩)
        · exact Or.inl (Or.inl hy)
        · rcases List.mem_cons.mp hq with rfl | hq
          · rw [hp] at hl
            cases hl
            exact Or.inl (Or.inr hyl)
          · exact Or.inr ⟨q, hq, l, hl, hyl⟩
    | none =>
      rw [ih]
      constructor
      · rintro (hy | ⟨q, hq, l, hl, hyl⟩)
        · exact Or.inl hy
        · exact Or.inr ⟨q, List.mem_cons_of_mem _ hq, l, hl, hyl⟩
      · rintro (hy | ⟨q, hq, l, hl, hyl⟩)
        · exact Or.inl hy
        · rcases List.mem_cons.mp hq with rfl | hq
          · rw [hp] at hl
            cases hl
          · exact Or.inr ⟨q, hq, l, hl, hyl⟩

lemma collect_fold_nodup (puuids : List String) (fetchIds : String → Option (List String))
    (acc : List String) (hacc : acc.Nodup) :
    (puuids.foldl (fun acc puuid =>
        match fetchIds puuid with
        | some ids => ids.foldl setAdd acc
        | none => acc) acc).Nodup := by
  induction puuids generalizing acc with
  | nil => simpa
  | cons p rest ih =>
    rw [List.foldl_cons]
    cases hp : fetchIds p with
    | some ids => exact ih _ (nodup_foldl_setAdd _ _ hacc)
    | none => exact ih _ hacc

/-- C3: for every non-empty player id list, `collectMatchIdsFromPlayers`
returns a duplicate-free set equal to the union of the match-id lists of
the players whose fetch succeeded (an id shared by several players appears
exactly once); an empty input fails with the invalid-argument error. -/
theorem C3_collect_match_ids (puuid_seed_list : List String)
    (fetchIds : String → Option (List String)) :
    (puuid_seed_list = [] →
       collectMatchIdsFromPlayers puuid_seed_list fetchIds =
         .error "The size of puuid seed list is invalid to find match") ∧
    (puuid_seed_list ≠ [] →
       ∃ res, collectMatchIdsFromPlayers puuid_seed_list fetchIds = .ok res ∧
         res.Nodup ∧
         ∀ y, y ∈ res ↔ ∃ p ∈ puuid_seed_list, ∃ l, fetchIds p = some l ∧ y ∈ l) := by
  constructor
  · rintro rfl
    rfl
  · intro hne
    have hlen : ¬ puuid_seed_list.length ≤ 0 := by
      simpa [Nat.pos_iff_ne_zero, List.length_eq_zero] using hne
    refine ⟨_, by rw [collectMatchIdsFromPlayers, if_neg hlen], ?_, ?_⟩
    · exact collect_fold_nodup _ _ _ List.nodup_nil
    · intro y
      rw [collect_fold_mem]
      simp

/-- Witness for `C3_collect_match_ids`: two players sharing match "M1"
contribute it exactly once, and the empty input errors. -/
theorem C3_collect_match_ids_witness :
    ([] = ([] : List String) →
       collectMatchIdsFromPlayers []
         (fun _ => some ["M1"]) =
         .error "The size of puuid seed list is invalid to find match") ∧
    (["P1", "P2"] ≠ ([] : List String) →
       ∃ res, collectMatchIdsFromPlayers ["P1", "P2"] (fun _ => some ["M1"]) = .ok res ∧
         res.Nodup ∧
         ∀ y, y ∈ res ↔ ∃ p ∈ ["P1", "P2"], ∃ l, (fun _ => some ["M1"]) p = some l ∧ y ∈ l) :=
  ⟨(C3_collect_match_ids [] (fun _ => some ["M1"])).1,
   (C3_collect_match_ids ["P1", "P2"] (fun _ => some ["M1"])).2⟩

/-- The destructuring swap `[a[i], a[j]] = [a[j], a[i]]` of the Fisher-Yates
loop in `selectRandomPlayers`; out-of-range indices leave the list
unchanged (the loop never produces them). -/
def swapIdx {α : Type} (l : List α) (i j : Nat) : List α :=
  match l[i]?, l[j]? with
  | some a, some b => (l.set i b).set j a
  | _, _ => l

/-- The `for (let i = length - 1; i > 0; i--)` Fisher-Yates loop of
`selectRandomPlayers`: processes index `i` down to `1`, swapping position
`i` with position `rand i % (i + 1)`.  `rand` injects the randomness of
`Math.floor(Math.random() * (i + 1))`, which is always in `[0, i]`; the
`% (i + 1)` encodes that range bound for an arbitrary source. -/
def fyLoop {α : Type} (rand : Nat → Nat) (l : List α) : Nat → List α
  | 0 => l
  | Nat.succ k => fyLoop rand (swapIdx l (k + 1) (rand (k + 1) % (k + 2))) k

/-- `selectRandomPlayers` of `src/services/playerSelectionService.ts`
(lines 12-41).  `players_needed = Math.ceil(match_goal / MATCHES_PER_PLAYER)`
is `(match_goal + 19) / 20` on naturals; if at least the whole input is
needed the input is returned unchanged, otherwise the input is shuffled
(Fisher-Yates over a copy) and the first `players_needed` entries are
returned. -/
def selectRandomPlayers {α : Type} (rand : Nat → Nat) (players : List α)
    (match_goal : Nat) : List α :=
  let players_needed := (match_goal + MATCHES_PER_PLAYER - 1) / MATCHES_PER_PLAYER
  if players_needed ≥ players.length then
    players
  else
    (fyLoop rand players (players.length - 1)).take players_needed

lemma set_get_self {α : Type} : ∀ (l : List α) (n : Nat) (h : n < l.length),
    l.set n (l.get ⟨n, h⟩) = l
  | [], n, h => by simp at h
  | _ :: _, 0, _ => rfl
  | x :: t, n + 1, h => by
    have := set_get_self t n (by simpa using h)
    simpa using this

lemma cons_get_set_perm {α : Type} (l : List α) (m : Nat) (h : m < l.length) (a : α) :
    (l.get ⟨m, h⟩ :: l.set m a).Perm (a :: l) := by
  have hset : l.set m a = l.take m ++ a :: l.drop (m + 1) :=
    List.set_eq_take_cons_drop a h
  have hdrop : l.drop m = l.get ⟨m, h⟩ :: l.drop (m + 1) := List.drop_eq_getElem_cons h
  have hsplit : l.take m ++ l.get ⟨m, h⟩ :: l.drop (m + 1) = l := by
    rw [← hdrop, List.take_append_drop]
  have p1 : (l.get ⟨m, h⟩ :: (l.take m ++ a :: l.drop (m + 1))).Perm
      (l.get ⟨m, h⟩ :: a :: (l.take m ++ l.drop (m + 1))) :=
    List.Perm.cons _ List.perm_middle
  have p2 : (l.get ⟨m, h⟩ :: a :: (l.take m ++ l.drop (m + 1))).Perm
      (a :: l.get ⟨m, h⟩ :: (l.take m ++ l.drop (m + 1))) :=
    List.Perm.swap a (l.get ⟨m, h⟩) _
  have p3 : (a :: l.get ⟨m, h⟩ :: (l.take m ++ l.drop (m + 1))).Perm
      (a :: (l.take m ++ l.get ⟨m, h⟩ :: l.drop (m + 1))) :=
    List.Perm.cons _ List.perm_middle.symm
  rw [hset]
  have p4 := (p1.trans p2).trans p3
  rw [hsplit] at p4
  exact p4

lemma set_set_perm {α : Type} : ∀ (l : List α) (i j : Nat) (hi : i < l.length)
    (hj : j < l.length),
    ((l.set i (l.get ⟨j, hj⟩)).set j (l.get ⟨i, hi⟩)).Perm l
  | [], i, j, hi, _ => by simp at hi
  | x :: t, 0, 0, _, _ => by simp
  | x :: t, 0, n + 1, hi, hj => by
    have hn : n < t.length := by simpa using hj
    simpa using cons_get_set_perm t n hn x
  | x :: t, m + 1, 0, hi, hj => by
    have hm : m < t.length := by simpa using hi
    simpa using cons_get_set_perm t m hm x
  | x :: t, m + 1, n + 1, hi, hj => by
    have hm : m < t.length := by simpa using hi
    have hn : n < t.length := by simpa using hj
    simpa using List.Perm.cons x (set_set_perm t m n hm hn)

lemma swapIdx_perm {α : Type} (l : List α) (i j : Nat) : (swapIdx l i j).Perm l := by
  unfold swapIdx
  cases hi : l[i]? with
  | none => exact List.Perm.refl l
  | some a =>
    cases hj : l[j]? with
    | none => exact List.Perm.refl l
    | some b =>
      rcases List.getElem?_eq_some.mp hi with ⟨hil, ha⟩
      rcases List.getElem?_eq_some.mp hj with ⟨hjl, hb⟩
      have ha2 : a = l.get ⟨i, hil⟩ := ha.symm
      have hb2 : b = l.get ⟨j, hjl⟩ := hb.symm
      rw [ha2, hb2]
      exact set_set_perm l i j hil hjl

lemma fyLoop_perm {α : Type} (rand : Nat → Nat) :
    ∀ (i : Nat) (l : List α), (fyLoop rand l i).Perm l
  | 0, l => List.Perm.refl l
  | Nat.succ k, l => by
    unfold fyLoop
    exact (fyLoop_perm rand k _).trans (swapIdx_perm l (k + 1) (rand (k + 1) % (k + 2)))

lemma selectRandomPlayers_eq {α : Type} (rand : Nat → Nat) (players : List α)
    (match_goal : Nat) :
    selectRandomPlayers rand players match_goal =
      if (match_goal + MATCHES_PER_PLAYER - 1) / MATCHES_PER_PLAYER ≥ players.length then
        players
      else
        (fyLoop rand players (players.length - 1)).take
          ((match_goal + MATCHES_PER_PLAYER - 1) / MATCHES_PER_PLAYER) := rfl

/-- C4: `selectRandomPlayers` returns exactly
`min (players.length) (ceil (match_goal / 20))` elements; when
`ceil (match_goal / 20) >= players.length` it returns the full input
unchanged; and the selection is always a sub-permutation of the input
(each selected element is a distinct element of the input), hence free of
duplicates whenever the input is. -/
theorem C4_select_random_players {α : Type} (rand : Nat → Nat) (players : List α)
    (match_goal : Nat) :
    (selectRandomPlayers rand players match_goal).length =
      min players.length ((match_goal + MATCHES_PER_PLAYER - 1) / MATCHES_PER_PLAYER) ∧
    ((match_goal + MATCHES_PER_PLAYER - 1) / MATCHES_PER_PLAYER ≥ players.length →
      selectRandomPlayers rand players match_goal = players) ∧
    (selectRandomPlayers rand players match_goal).Subperm players ∧
    (players.Nodup → (selectRandomPlayers rand players match_goal).Nodup) := by
  rw [selectRandomPlayers_eq]
  by_cases h : (match_goal + MATCHES_PER_PLAYER - 1) / MATCHES_PER_PLAYER ≥ players.length
  · rw [if_pos h]
    exact ⟨(Nat.min_eq_left h).symm, fun _ => rfl,
      (List.Perm.refl players).subperm, fun hd => hd⟩
  · rw [if_neg h]
    have hp : (fyLoop rand players (players.length - 1)).Perm players :=
      fyLoop_perm rand (players.length - 1) players
    refine ⟨?_, fun hge => absurd hge h, ?_, ?_⟩
    · rw [List.length_take, hp.length_eq, Nat.min_comm]
    · exact (List.take_sublist _ _).subperm.trans hp.subperm
    · intro hnd
      exact ((hp.nodup_iff).mpr hnd).sublist (List.take_sublist _ _)

/-- Witness for `C4_select_random_players`: 10 candidates and a goal of 25
matches select exactly 2 duplicate-free entries (end-to-end scenario B),
and 1 candidate with a goal of 100 is returned unchanged. -/
theorem C4_select_random_players_witness :
    (selectRandomPlayers (fun _ => 0) ["a", "b", "c", "d", "e", "f", "g", "h", "i", "j"]
        25).length =
      min (List.length ["a", "b", "c", "d", "e", "f", "g", "h", "i", "j"])
        ((25 + MATCHES_PER_PLAYER - 1) / MATCHES_PER_PLAYER) ∧
    selectRandomPlayers (fun _ => 0) ["a"] 100 = ["a"] ∧
    (selectRandomPlayers (fun _ => 0) ["a", "b", "c", "d", "e", "f", "g", "h", "i", "j"]
        25).Nodup :=
  ⟨(C4_select_random_players (fun _ => 0) _ 25).1,
   (C4_select_random_players (fun _ => 0) ["a"] 100).2.1 (by decide),
   (C4_select_random_players (fun _ => 0) _ 25).2.2.2 (by decide)⟩

/-- Outcome of one attempt of the wrapped API call inside
`retryOnRateLimit` (`src/helper/helper.ts`): it resolves with a response,
or rejects with an axios error carrying HTTP status 429 (whose
`retry-after` header, parsed as a number of seconds, may be absent), or
rejects with any other error. -/
inductive ApiAttempt (α : Type) where
  | success (resp : α)
  | rateLimited (retryAfterHeader : Option Nat)
  | otherFailure
deriving DecidableEq

/-- Error result of `retryOnRateLimit`: the last 429 error re-thrown after
the attempt ceiling, any non-429 error re-thrown immediately, or the
unreachable-for-positive-ceiling generic
`Error("API call failed after retries")`. -/
inductive ApiError where
  | rateLimited (retryAfterHeader : Option Nat)
  | otherFailure
  | retriesExhausted
deriving DecidableEq

/-- Milliseconds slept for one 429: `parseInt(headers[...] || '10') * 1000`
— the hinted seconds, defaulting to 10, times 1000. -/
def retryWait (retryAfterHeader : Option Nat) : Nat :=
  (retryAfterHeader.getD 10) * 1000

/-- The `for (let attempt = 1; attempt <= maxRetries; attempt++)` loop of
`retryOnRateLimit` starting at a given attempt number.  Returns the
result together with the ordered list of sleep durations (ms) performed.
On a 429 the loop sleeps, then re-throws the error if the attempt ceiling
is reached, otherwise retries; any other failure is re-thrown at once. -/
def retryLoop {α : Type} (apiCall : Nat → ApiAttempt α) (maxRetries : Nat)
    (attempt : Nat) : Except ApiError α × List Nat :=
  if _h : attempt > maxRetries then
    (.error .retriesExhausted, [])
  else
    match apiCall attempt with
    | .success r => (.ok r, [])
    | .rateLimited hdr =>
      if attempt == maxRetries then
        (.error (.rateLimited hdr), [retryWait hdr])
      else
        let rest := retryLoop apiCall maxRetries (attempt + 1)
        (rest.1, retryWait hdr :: rest.2)
    | .otherFailure => (.error .otherFailure, [])
termination_by maxRetries + 1 - attempt
decreasing_by omega

/-- `retryOnRateLimit` of `src/helper/helper.ts` (lines 7-23); the source's
`maxRetries` parameter defaults to 3.  `apiCall` gives the outcome of each
numbered attempt. -/
def retryOnRateLimit {α : Type} (apiCall : Nat → ApiAttempt α) (maxRetries : Nat) :
    Except ApiError α × List Nat :=
  retryLoop apiCall maxRetries 1

/-- C6: with the default ceiling of 3 attempts, `retryOnRateLimit` returns
the response of the first successful attempt; each throttling (429)
response causes a sleep for the hinted wait duration (10 s fallback when
the header is absent) and a retry, until after the third 429 the last
error is re-raised; and any non-throttling failure propagates immediately
without a retry. -/
theorem C6_retry_on_rate_limit {α : Type} (apiCall : Nat → ApiAttempt α) :
    (∀ r, apiCall 1 = .success r →
       retryOnRateLimit apiCall 3 = (.ok r, [])) ∧
    (∀ h1 r, apiCall 1 = .rateLimited h1 → apiCall 2 = .success r →
       retryOnRateLimit apiCall 3 = (.ok r, [retryWait h1])) ∧
    (∀ h1 h2 r, apiCall 1 = .rateLimited h1 → apiCall 2 = .rateLimited h2 →
       apiCall 3 = .success r →
       retryOnRateLimit apiCall 3 = (.ok r, [retryWait h1, retryWait h2])) ∧
    (∀ h1 h2 h3, apiCall 1 = .rateLimited h1 → apiCall 2 = .rateLimited h2 →
       apiCall 3 = .rateLimited h3 →
       retryOnRateLimit apiCall 3 =
         (.error (.rateLimited h3), [retryWait h1, retryWait h2, retryWait h3])) ∧
    (apiCall 1 = .otherFailure →
       retryOnRateLimit apiCall 3 = (.error .otherFailure, [])) ∧
    (∀ h1, apiCall 1 = .rateLimited h1 → apiCall 2 = .otherFailure →
       retryOnRateLimit apiCall 3 = (.error .otherFailure, [retryWait h1])) ∧
    retryWait none = 10 * 1000 := by
  refine ⟨?_, ?_, ?_, ?_, ?_, ?_, rfl⟩
  · intro r h1
    unfold retryOnRateLimit retryLoop
    simp [h1]
  · intro hd1 r h1 h2
    unfold retryOnRateLimit retryLoop retryLoop
    simp [h1, h2]
  · intro hd1 hd2 r h1 h2 h3
    unfold retryOnRateLimit retryLoop retryLoop retryLoop
    simp [h1, h2, h3]
  · intro hd1 hd2 hd3 h1 h2 h3
    unfold retryOnRateLimit retryLoop retryLoop retryLoop
    simp [h1, h2, h3]
  · intro h1
    unfold retryOnRateLimit retryLoop
    simp [h1]
  · intro hd1 h1 h2
    unfold retryOnRateLimit retryLoop retryLoop
    simp [h1, h2]

/-- Witness for `C6_retry_on_rate_limit`: a call that is throttled once
with a 5-second hint and then succeeds returns the second response after a
single 5000 ms sleep. -/
theorem C6_retry_on_rate_limit_witness :
    retryOnRateLimit
        (fun attempt => if attempt = 1 then .rateLimited (some 5) else .success 42) 3 =
      (.ok 42, [retryWait (some 5)]) :=
  (C6_retry_on_rate_limit
      (fun attempt => if attempt = 1 then .rateLimited (some 5) else .success (42 : Nat))).2.1
    (some 5) 42 (by decide) (by decide)

/-- Outcome of the league-entries request for one player inside
`fetchPlayerLeague` (`src/services/leagueCollectorService.ts`): a parsed
entry array, a 404, another axios error, or a zod validation failure.
Every non-ok outcome is caught there and yields `null`. -/
inductive LeagueFetch where
  | ok (entries : List Riot.RiotLeagueEntry)
  | notFound
  | apiError
  | invalidPayload
deriving DecidableEq

/-- `fetchPlayerLeague` of `src/services/leagueCollectorService.ts`
(lines 14-44): on a parsed response it returns the first entry whose
`queueType` is `RANKED_TFT` and `null` (here `none`) when no such entry
exists; every error outcome also returns `null`. -/
def fetchPlayerLeague (fetchOutcome : String → LeagueFetch) (puuid : String) :
    Option Riot.RiotLeagueEntry :=
  match fetchOutcome puuid with
  | .ok entries => entries.find? (fun entry => entry.queueType == "RANKED_TFT")
  | _ => none

/-- `fetchAndSavePlayerLeagues` of `src/services/leagueCollectorService.ts`
(lines 83-111): iterates the ids, fetches each league, invokes the
persistence callback only when an entry was found, counts an id only when
the callback also resolves.  Returns the success count together with the
ordered log of callback invocations (iterated id, entry passed). -/
def fetchAndSavePlayerLeagues (puuids : List String)
    (fetchOutcome : String → LeagueFetch)
    (onLeagueFetched : Riot.RiotLeagueEntry → Bool) :
    Nat × List (String × Riot.RiotLeagueEntry) :=
  match puuids with
  | [] => (0, [])
  | puuid :: rest =>
    let step : Nat × List (String × Riot.RiotLeagueEntry) :=
      match fetchPlayerLeague fetchOutcome puuid with
      | some league =>
        if onLeagueFetched league then (1, [(puuid, league)]) else (0, [(puuid, league)])
      | none => (0, [])
    let restRun := fetchAndSavePlayerLeagues rest fetchOutcome onLeagueFetched
    (step.1 + restRun.1, step.2 ++ restRun.2)

/-- One player id counts as successfully enriched when a RANKED_TFT entry
was found and the persistence callback resolved. -/
def leagueSucceeds (fetchOutcome : String → LeagueFetch)
    (onLeagueFetched : Riot.RiotLeagueEntry → Bool) (puuid : String) : Bool :=
  match fetchPlayerLeague fetchOutcome puuid with
  | some league => onLeagueFetched league
  | none => false

lemma league_run_writes_cons (puuid : String) (rest : List String)
    (fetchOutcome : String → LeagueFetch) (save : Riot.RiotLeagueEntry → Bool) :
    fetchAndSavePlayerLeagues (puuid :: rest) fetchOutcome save =
      ((if leagueSucceeds fetchOutcome save puuid then 1 else 0) +
         (fetchAndSavePlayerLeagues rest fetchOutcome save).1,
       (match fetchPlayerLeague fetchOutcome puuid with
        | some league => [(puuid, league)]
        | none => []) ++ (fetchAndSavePlayerLeagues rest fetchOutcome save).2) := by
  conv_lhs => rw [fetchAndSavePlayerLeagues]
  unfold leagueSucceeds
  cases h : fetchPlayerLeague fetchOutcome puuid with
  | some league =>
    cases hs : save league with
    | true => simp [hs]
    | false => simp [hs]
  | none => simp

/-- C7: for every run of the league enrichment streamer, (a) every
callback invocation carries the first `RANKED_TFT` entry of that player's
parsed response — only the primary ranked queue is ever persisted; (b) a
player whose parsed response contains no `RANKED_TFT` entry (for example
only other queue variants) triggers no callback invocation at all; and
(c) the returned count equals the number of ids for which an entry was
found and persisted, so such a skipped player contributes nothing. -/
theorem C7_league_filters_primary_queue (puuids : List String)
    (fetchOutcome : String → LeagueFetch) (save : Riot.RiotLeagueEntry → Bool) :
    (∀ p league, (p, league) ∈ (fetchAndSavePlayerLeagues puuids fetchOutcome save).2 →
       league.queueType = "RANKED_TFT" ∧
       ∃ entries, fetchOutcome p = .ok entries ∧
         entries.find? (fun entry => entry.queueType == "RANKED_TFT") = some league) ∧
    (∀ p entries, fetchOutcome p = .ok entries →
       entries.find? (fun entry => entry.queueType == "RANKED_TFT") = none →
       ∀ league, (p, league) ∉ (fetchAndSavePlayerLeagues puuids fetchOutcome save).2) ∧
    (fetchAndSavePlayerLeagues puuids fetchOutcome save).1 =
      (puuids.filter (leagueSucceeds fetchOutcome save)).length := by
  refine ⟨?_, ?_, ?_⟩
  · intro p league hmem
    induction puuids with
    | nil => simp [fetchAndSavePlayerLeagues] at hmem
    | cons q rest ih =>
      rw [league_run_writes_cons] at hmem
      rcases List.mem_append.mp hmem with hmem | hmem
      · cases hq : fetchPlayerLeague fetchOutcome q with
        | some league2 =>
          rw [hq] at hmem
          simp only [List.mem_singleton, Prod.mk.injEq] at hmem
          rcases hmem with ⟨rfl, rfl⟩
          unfold fetchPlayerLeague at hq
          cases ho : fetchOutcome p with
          | ok entries =>
            rw [ho] at hq
            refine ⟨?_, entries, rfl, hq⟩
            have := List.find?_some hq
            simpa using this
          | notFound => rw [ho] at hq; cases hq
          | apiError => rw [ho] at hq; cases hq
          | invalidPayload => rw [ho] at hq; cases hq
        | none => rw [hq] at hmem; cases hmem
      · exact ih hmem
  · intro p entries ho hnone league hmem
    induction puuids with
    | nil => simp [fetchAndSavePlayerLeagues] at hmem
    | cons q rest ih =>
      rw [league_run_writes_cons] at hmem
      rcases List.mem_append.mp hmem with hmem | hmem
      · cases hq : fetchPlayerLeague fetchOutcome q with
        | some league2 =>
          rw [hq] at hmem
          simp only [List.mem_singleton, Prod.mk.injEq] at hmem
          rcases hmem with ⟨rfl, rfl⟩
          unfold fetchPlayerLeague at hq
          rw [ho] at hq
          simp [hnone] at hq
        | none => rw [hq] at hmem; cases hmem
      · exact ih hmem
  · induction puuids with
    | nil => rfl
    | cons q rest ih =>
      rw [league_run_writes_cons]
      cases hs : leagueSucceeds fetchOutcome save q <;>
        simp [List.filter_cons, hs, ih, Nat.add_comm]

/-- A league entry for the non-primary `RANKED_TFT_TURBO` queue, used as a
concrete response in witnesses. -/
def turboOnlyEntry : Riot.RiotLeagueEntry :=
  { puuid := "P1"
    leagueId := "L1"
    queueType := "RANKED_TFT_TURBO"
    tier := "DIAMOND"
    rank := "I"
    leaguePoints := 10
    wins := 1
    losses := 1
    veteran := false
    inactive := false
    freshBlood := false
    hotStreak := false }

/-- Witness for `C7_league_filters_primary_queue` (end-to-end scenario D):
a player whose only queue entry is `RANKED_TFT_TURBO` produces no callback
invocation. -/
theorem C7_league_witness :
    ("P1", turboOnlyEntry) ∉
      (fetchAndSavePlayerLeagues ["P1"] (fun _ => .ok [turboOnlyEntry])
        (fun _ => true)).2 :=
  (C7_league_filters_primary_queue ["P1"] (fun _ => .ok [turboOnlyEntry])
      (fun _ => true)).2.1 "P1" [turboOnlyEntry] rfl (by decide) turboOnlyEntry

/-- A row of the `players` table (`PlayerDBSchema` of
`src/models/database/PlayerDBModel.ts`). -/
structure PlayerRow where
  puuid : String
  game_name : Option String
  tag_line : Option String
  tier : String
  league_points : Int
  rank : String
  wins : Int
  losses : Int
  veteran : Bool
  inactive : Bool
  fresh_blood : Bool
  hot_streak : Bool
deriving DecidableEq

/-- A row of the `matches` table (`MatchDBSchema` of
`src/models/database/MatchDBMode.ts`); the JSONB `data` column holds the
raw match payload. -/
structure MatchRow where
  match_id : String
  data : Riot.RiotMatch
  is_processed : Bool
  region : String
deriving DecidableEq

/-- A row of the `players_matches_link` junction table
(`PlayerMatchLinkDBSchema` of `src/models/database/MatchDBMode.ts`). -/
structure PlayerMatchLinkRow where
  puuid : String
  match_id : String
deriving DecidableEq

/-- The relational store: the three tables the pipeline writes.  Rows are
kept in insertion order.  The field `matchRows` models the table named
`matches` in the schema (`matches` is a Lean keyword). -/
structure DBState where
  players : List PlayerRow
  matchRows : List MatchRow
  links : List PlayerMatchLinkRow
deriving DecidableEq

/-- The default-valued player stub built inside `upsertPlayerStubs`
(`src/repository/matchRepository.ts` lines 41-68): only the puuid is
real, every other required column gets the hard-coded default. -/
def stubRow (puuid : String) : PlayerRow :=
  { puuid := puuid
    game_name := none
    tag_line := none
    tier := "UNKNOWN"
    league_points := 0
    rank := "IV"
    wins := 0
    losses := 0
    veteran := false
    inactive := false
    fresh_blood := false
    hot_streak := false }

/-- `upsertPlayerStubs` of `src/repository/matchRepository.ts`
(lines 41-68) at the table level: a batch upsert with
`onConflict: 'puuid', ignoreDuplicates: true` inserts the stub row for a
puuid only when no row with that puuid exists (rows earlier in the same
batch included); existing rows are never touched. -/
def upsertPlayerStubs (table : List PlayerRow) (puuids : List String) : List PlayerRow :=
  puuids.foldl
    (fun t puuid => if t.any (fun row => row.puuid == puuid) then t else t ++ [stubRow puuid])
    table

/-- `upsertMatch` of `src/repository/matchRepository.ts` (lines 8-18) at
the table level: upsert with `onConflict: 'match_id'` replaces the row
with the same match id, or appends a new row. -/
def upsertMatch (table : List MatchRow) (m : MatchRow) : List MatchRow :=
  if table.any (fun row => row.match_id == m.match_id) then
    table.map (fun row => if row.match_id == m.match_id then m else row)
  else
    table ++ [m]

/-- `upsertPlayerMatchLinks` of `src/repository/matchRepository.ts`
(lines 73-88) at the table level: batch upsert with
`onConflict: 'puuid,match_id', ignoreDuplicates: true` inserts each link
only when the (puuid, match id) pair is not yet present. -/
def upsertPlayerMatchLinks (table : List PlayerMatchLinkRow)
    (links : List PlayerMatchLinkRow) : List PlayerMatchLinkRow :=
  links.foldl
    (fun t l =>
      if t.any (fun row => row.puuid == l.puuid && row.match_id == l.match_id) then t
      else t ++ [l])
    table

/-- Whether a player id appears in some player-match link of the store. -/
def hasLink (s : DBState) (puuid : String) : Bool :=
  s.links.any (fun l => l.puuid == puuid)

/-- The SQL stored procedure `delete_orphaned_players` invoked via
`supabase.rpc` by `deletePlayersWithoutMatches`
(`src/repository/playerRepository.ts` lines 81-95).  Its body is in the
repository's schema provisioning SQL (the setup documents): it runs
`DELETE FROM players WHERE puuid NOT IN (SELECT DISTINCT puuid FROM
players_matches_link)` and returns the deleted row count read with
`GET DIAGNOSTICS ... ROW_COUNT`.  The link table's `puuid` column is
declared NOT NULL, so `NOT IN` is the plain complement: exactly the
players without any link row are deleted; since such players have no
link rows, the link table's `ON DELETE CASCADE` removes nothing. -/
def delete_orphaned_players (s : DBState) : DBState × Nat :=
  ({ s with players := s.players.filter (fun row => hasLink s row.puuid) },
   (s.players.filter (fun row => !hasLink s row.puuid)).length)

/-- `deletePlayersWithoutMatches` of `src/repository/playerRepository.ts`
(lines 81-95): invokes the `delete_orphaned_players` procedure and returns
its count. -/
def deletePlayersWithoutMatches (s : DBState) : DBState × Nat :=
  delete_orphaned_players s

/-- C8: `deletePlayersWithoutMatches` is idempotent on the store: a second
run with no intervening writes deletes 0 players and leaves the store
unchanged, and after any run every remaining player record has an
associated player-match link. -/
theorem C8_orphan_delete_idempotent (s : DBState) :
    (deletePlayersWithoutMatches (deletePlayersWithoutMatches s).1).2 = 0 ∧
    (deletePlayersWithoutMatches (deletePlayersWithoutMatches s).1).1 =
      (deletePlayersWithoutMatches s).1 ∧
    (∀ row ∈ (deletePlayersWithoutMatches s).1.players,
      hasLink (deletePlayersWithoutMatches s).1 row.puuid = true) := by
  unfold deletePlayersWithoutMatches delete_orphaned_players
  have hLinkEq : ∀ p, hasLink { s with players := s.players.filter (fun row => hasLink s row.puuid) } p = hasLink s p := by
    intro p
    rfl
  refine ⟨?_, ?_, ?_⟩
  · simp only [hLinkEq, List.filter_filter]
    have : ∀ row ∈ s.players, ¬((!hasLink s row.puuid) && hasLink s row.puuid) = true := by
      intro row _
      cases hasLink s row.puuid <;> decide
    rw [List.filter_eq_nil_iff.mpr this]
    rfl
  · simp only [hLinkEq, List.filter_filter]
    have : (fun row => hasLink s row.puuid && hasLink s row.puuid) =
        (fun row : PlayerRow => hasLink s row.puuid) := by
      funext row
      cases hasLink s row.puuid <;> rfl
    rw [this]
  · intro row hrow
    rw [hLinkEq]
    exact (List.mem_filter.mp hrow).2

/-- Witness for `C8_orphan_delete_idempotent`: a store with one linked and
one orphaned player keeps exactly the linked one, whose link persists. -/
theorem C8_orphan_delete_witness :
    hasLink (deletePlayersWithoutMatches
        { players := [stubRow "P1", stubRow "P2"]
          matchRows := []
          links := [{ puuid := "P1", match_id := "M1" }] }).1 (stubRow "P1").puuid = true :=
  (C8_orphan_delete_idempotent
      { players := [stubRow "P1", stubRow "P2"]
        matchRows := []
        links := [{ puuid := "P1", match_id := "M1" }] }).2.2
    (stubRow "P1") (by decide)

lemma upsertPlayerStubs_cons (table : List PlayerRow) (p : String) (rest : List String) :
    upsertPlayerStubs table (p :: rest) =
      upsertPlayerStubs
        (if table.any (fun row => row.puuid == p) then table else table ++ [stubRow p])
        rest := rfl

lemma upsertPlayerStubs_append (table : List PlayerRow) (puuids : List String) :
    ∃ added, upsertPlayerStubs table puuids = table ++ added ∧
      ∀ row ∈ added, row = stubRow row.puuid ∧ ∀ r0 ∈ table, r0.puuid ≠ row.puuid := by
  induction puuids generalizing table with
  | nil => exact ⟨[], by simp [upsertPlayerStubs], by simp⟩
  | cons p rest ih =>
    rw [upsertPlayerStubs_cons]
    by_cases h : table.any (fun row => row.puuid == p)
    · rw [if_pos h]
      exact ih table
    · rw [if_neg h]
      obtain ⟨added, heq, hprop⟩ := ih (table ++ [stubRow p])
      refine ⟨stubRow p :: added, ?_, ?_⟩
      · rw [heq, List.append_assoc]
        rfl
      · intro row hrow
        rcases List.mem_cons.mp hrow with rfl | hrow
        · refine ⟨rfl, ?_⟩
          intro r0 hr0 hpu
          exact h (List.any_eq_true.mpr ⟨r0, hr0, by simp [stubRow] at hpu; simp [hpu]⟩)
        · obtain ⟨hstub, hfresh⟩ := hprop row hrow
          exact ⟨hstub, fun r0 hr0 => hfresh r0 (List.mem_append_left _ hr0)⟩

lemma upsertPlayerStubs_mem_mono (table : List PlayerRow) (puuids : List String)
    (row : PlayerRow) (hrow : row ∈ table) : row ∈ upsertPlayerStubs table puuids := by
  obtain ⟨added, heq, _⟩ := upsertPlayerStubs_append table puuids
  rw [heq]
  exact List.mem_append_left _ hrow

lemma upsertPlayerStubs_covers (table : List PlayerRow) (puuids : List String) :
    ∀ p ∈ puuids, ∃ row ∈ upsertPlayerStubs table puuids, row.puuid = p := by
  induction puuids generalizing table with
  | nil => simp
  | cons q rest ih =>
    intro p hp
    rw [upsertPlayerStubs_cons]
    rcases List.mem_cons.mp hp with rfl | hp
    · by_cases h : table.any (fun row => row.puuid == p)
      · rw [if_pos h]
        rcases List.any_eq_true.mp h with ⟨row, hrow, hbeq⟩
        exact ⟨row, upsertPlayerStubs_mem_mono _ _ _ hrow, by simpa using hbeq⟩
      · rw [if_neg h]
        exact ⟨stubRow p,
          upsertPlayerStubs_mem_mono _ _ _ (List.mem_append_right _ (List.mem_singleton.mpr rfl)),
          rfl⟩
    · by_cases h : table.any (fun row => row.puuid == q)
      · rw [if_pos h]
        exact ih table p hp
      · rw [if_neg h]
        exact ih (table ++ [stubRow q]) p hp

/-- C10: `upsertPlayerStubs` never touches a player row that is already in
the table — the existing rows are preserved verbatim as a prefix and every
appended row carries a puuid that no existing row has — and the rows it
appends are exactly default-valued stubs; each requested id ends up
present, so a new stub is created only for ids not previously present and
re-observing an enriched player never resets their fields. -/
theorem C10_stubs_preserve_existing_rows (table : List PlayerRow) (puuids : List String) :
    ∃ added, upsertPlayerStubs table puuids = table ++ added ∧
      (∀ row ∈ added, row = stubRow row.puuid ∧ ∀ r0 ∈ table, r0.puuid ≠ row.puuid) ∧
      (∀ p ∈ puuids, ∃ row ∈ upsertPlayerStubs table puuids, row.puuid = p) := by
  obtain ⟨added, heq, hprop⟩ := upsertPlayerStubs_append table puuids
  exact ⟨added, heq, hprop, upsertPlayerStubs_covers table puuids⟩

/-- An already-enriched player row, used as concrete table content in
witnesses. -/
def enrichedRow : PlayerRow :=
  { puuid := "P1"
    game_name := some "Alice"
    tag_line := some "TAG"
    tier := "DIAMOND"
    league_points := 50
    rank := "II"
    wins := 10
    losses := 5
    veteran := false
    inactive := false
    fresh_blood := true
    hot_streak := false }

/-- Witness for `C10_stubs_preserve_existing_rows`: re-observing enriched
player "P1" next to new player "P2" keeps the enriched row as the prefix
and only appends fresh stubs. -/
theorem C10_stubs_witness :
    ∃ added, upsertPlayerStubs [enrichedRow] ["P1", "P2"] = [enrichedRow] ++ added ∧
      (∀ row ∈ added, row = stubRow row.puuid ∧ ∀ r0 ∈ [enrichedRow], r0.puuid ≠ row.puuid) ∧
      (∀ p ∈ ["P1", "P2"],
        ∃ row ∈ upsertPlayerStubs [enrichedRow] ["P1", "P2"], row.puuid = p) :=
  C10_stubs_preserve_existing_rows [enrichedRow] ["P1", "P2"]

lemma upsertMatch_preserves_id (table : List MatchRow) (m : MatchRow) (mid : String)
    (h : ∃ row ∈ table, row.match_id = mid) :
    ∃ row ∈ upsertMatch table m, row.match_id = mid := by
  rcases h with ⟨row, hrow, rfl⟩
  unfold upsertMatch
  by_cases hc : table.any (fun row => row.match_id == m.match_id)
  · rw [if_pos hc]
    have hmem := List.mem_map_of_mem
      (fun row2 => if (row2.match_id == m.match_id) = true then m else row2) hrow
    by_cases he : (row.match_id == m.match_id) = true
    · simp only [he, if_true] at hmem
      exact ⟨m, hmem, (by simpa using he : row.match_id = m.match_id).symm⟩
    · simp only [he, if_false] at hmem
      exact ⟨row, hmem, rfl⟩
  · rw [if_neg hc]
    exact ⟨row, List.mem_append_left _ hrow, rfl⟩

lemma upsertMatch_has_new_id (table : List MatchRow) (m : MatchRow) :
    ∃ row ∈ upsertMatch table m, row.match_id = m.match_id := by
  unfold upsertMatch
  by_cases hc : table.any (fun row => row.match_id == m.match_id)
  · rw [if_pos hc]
    rcases List.any_eq_true.mp hc with ⟨row, hrow, hbeq⟩
    have hmem := List.mem_map_of_mem
      (fun row2 => if (row2.match_id == m.match_id) = true then m else row2) hrow
    simp only [hbeq, if_true] at hmem
    exact ⟨m, hmem, rfl⟩
  · rw [if_neg hc]
    exact ⟨m, List.mem_append_right _ (List.mem_singleton.mpr rfl), rfl⟩

lemma upsertPlayerMatchLinks_cons (table : List PlayerMatchLinkRow)
    (lk : PlayerMatchLinkRow) (rest : List PlayerMatchLinkRow) :
    upsertPlayerMatchLinks table (lk :: rest) =
      upsertPlayerMatchLinks
        (if table.any (fun row => row.puuid == lk.puuid && row.match_id == lk.match_id)
         then table else table ++ [lk]) rest := rfl

lemma mem_upsertPlayerMatchLinks (table links : List PlayerMatchLinkRow)
    (l : PlayerMatchLinkRow) (h : l ∈ upsertPlayerMatchLinks table links) :
    l ∈ table ∨ l ∈ links := by
  induction links generalizing table with
  | nil => exact Or.inl h
  | cons lk rest ih =>
    rw [upsertPlayerMatchLinks_cons] at h
    rcases ih _ h with h1 | h1
    · by_cases hc : table.any
          (fun row => row.puuid == lk.puuid && row.match_id == lk.match_id)
      · rw [if_pos hc] at h1
        exact Or.inl h1
      · rw [if_neg hc] at h1
        rcases List.mem_append.mp h1 with h2 | h2
        · exact Or.inl h2
        · exact Or.inr (List.mem_cons.mpr (Or.inl (List.mem_singleton.mp h2)))
    · exact Or.inr (List.mem_cons_of_mem _ h1)

/-- The `MatchDB` record built by the `onMatchFetched` callback in
`collectMatchesFromPlayers` (`src/index.ts` lines 201-226). -/
def mkMatchRow (region : String) (r : MatchDetailResult) : MatchRow :=
  { match_id := r.matchId
    data := r.fullMatchData
    is_processed := false
    region := region }

/-- The player-match link records built by the callback in
`collectMatchesFromPlayers`: one per participant of the match. -/
def mkLinks (r : MatchDetailResult) : List PlayerMatchLinkRow :=
  r.playerPuuids.map (fun puuid => { puuid := puuid, match_id := r.matchId })

/-- State after the first operation of the per-match callback in
`collectMatchesFromPlayers` (`src/index.ts`): `upsertMatch` of the match
record. -/
def saveMatchStep1 (region : String) (s : DBState) (r : MatchDetailResult) : DBState :=
  { s with matchRows := upsertMatch s.matchRows (mkMatchRow region r) }

/-- State after the second operation of the callback: `upsertPlayerStubs`
for all of the match's participants. -/
def saveMatchStep2 (region : String) (s : DBState) (r : MatchDetailResult) : DBState :=
  let s1 := saveMatchStep1 region s r
  { s1 with players := upsertPlayerStubs s1.players r.playerPuuids }

/-- State after the third and last operation of the callback:
`upsertPlayerMatchLinks` for all (participant, match) pairs. -/
def saveMatchCallback (region : String) (s : DBState) (r : MatchDetailResult) : DBState :=
  let s2 := saveMatchStep2 region s r
  { s2 with links := upsertPlayerMatchLinks s2.links (mkLinks r) }

/-- Referential consistency of the store: every player-match link points
at an existing player row and an existing match row. -/
def Consistent (s : DBState) : Prop :=
  ∀ l ∈ s.links,
    (∃ p ∈ s.players, p.puuid = l.puuid) ∧ (∃ m ∈ s.matchRows, m.match_id = l.match_id)

/-- C9: the per-match persistence callback upserts the match record first,
then the participant player stubs, and only then the player-match links,
so from a consistent store every intermediate state — after the match
upsert, after the stub upserts, and after the link creation — is again
consistent: at no point does a link reference a missing player or match
record. -/
theorem C9_callback_preserves_consistency (region : String) (s : DBState)
    (r : MatchDetailResult) (hs : Consistent s) :
    Consistent (saveMatchStep1 region s r) ∧
    Consistent (saveMatchStep2 region s r) ∧
    Consistent (saveMatchCallback region s r) := by
  have h1 : Consistent (saveMatchStep1 region s r) := by
    intro l hl
    obtain ⟨hp, hm⟩ := hs l hl
    exact ⟨hp, upsertMatch_preserves_id _ _ _ hm⟩
  have h2 : Consistent (saveMatchStep2 region s r) := by
    intro l hl
    obtain ⟨⟨p, hpmem, hpid⟩, hm⟩ := h1 l hl
    exact ⟨⟨p, upsertPlayerStubs_mem_mono _ _ _ hpmem, hpid⟩, hm⟩
  refine ⟨h1, h2, ?_⟩
  intro l hl
  rcases mem_upsertPlayerMatchLinks _ _ _ hl with hold | hnew
  · exact h2 l hold
  · rcases List.mem_map.mp hnew with ⟨puuid, hpu, rfl⟩
    constructor
    · obtain ⟨row, hrow, hrid⟩ := upsertPlayerStubs_covers _ _ puuid hpu
      exact ⟨row, hrow, hrid⟩
    · obtain ⟨row, hrow, hrid⟩ := upsertMatch_has_new_id s.matchRows (mkMatchRow region r)
      exact ⟨row, hrow, hrid⟩

/-- Witness for `C9_callback_preserves_consistency`: persisting the
concrete one-participant match into the empty store keeps every
intermediate state consistent. -/
theorem C9_callback_witness :
    Consistent (saveMatchStep1 "sea"
      { players := [], matchRows := [], links := [] }
      (mkMatchDetailResult "M1" exampleMatchOneParticipant)) ∧
    Consistent (saveMatchStep2 "sea"
      { players := [], matchRows := [], links := [] }
      (mkMatchDetailResult "M1" exampleMatchOneParticipant)) ∧
    Consistent (saveMatchCallback "sea"
      { players := [], matchRows := [], links := [] }
      (mkMatchDetailResult "M1" exampleMatchOneParticipant)) :=
  C9_callback_preserves_consistency "sea"
    { players := [], matchRows := [], links := [] }
    (mkMatchDetailResult "M1" exampleMatchOneParticipant)
    (fun l hl => absurd hl (List.not_mem_nil l))
